import Mathlib

/-!
Shallow embedding of `argument.go` from Windscribe/argparse.

Go strings are modelled as `List Char`, a slice of strings as
`List (List Char)`.  The dynamically typed `result interface{}` pointer is
modelled as a tagged value `ResultVal`; its tag plays the role of the Go
type switch `switch o.result.(type)`.  In-place mutation of the token slice
(`reduce`) and of the receiver (`parse`) is modelled by returning the new
value.  The `-h`/`--help` shortcut and the `*help` branch of `parse` call
`os.Exit`; these process-terminating paths are modelled by the distinguished
outcomes `CheckOut.helpExit` / `ParseOut.helpExit`.
-/

/-- The output slot of an option: the Go `result interface{}` field together
with the value currently stored behind the pointer.  The five recognised
dynamic types are `*help`, `*bool`, `*string`, `*os.File` and `*[]string`;
`unsupported` stands for any other dynamic type (the `default` branch).
An open file is modelled as an abstract `Nat` handle. -/
inductive ResultVal where
  | help : ResultVal
  | boolean : Bool → ResultVal
  | str : List Char → ResultVal
  | file : Nat → ResultVal
  | strList : List (List Char) → ResultVal
  | unsupported : ResultVal
deriving DecidableEq

/-- Modelled from the spec: the `Options` struct is declared outside this
file (only `opts.Validate` and `opts.Required` are used by `argument.go`).
`required` affects usage rendering only; `validate` is the caller-supplied
pre-check run on the raw extracted token slice, returning an error message
or nothing. -/
structure GoOptions where
  required : Bool
  validate : Option (List (List Char) → Option (List Char))

/-- The Go `arg` struct.  `parent` is only used to render usage text on the
process-terminating help paths, so it is not carried here. -/
structure arg where
  result : ResultVal
  opts : Option GoOptions
  sname : List Char
  lname : List Char
  size : Nat
  unique : Bool
  parsed : Bool
  fileFlag : Nat
  filePerm : Nat
  selector : Option (List (List Char))

/-- `strings.HasPrefix hay needle`. -/
def startsWithL : List Char → List Char → Bool
  | _, [] => true
  | [], _ :: _ => false
  | a :: as, b :: bs => a == b && startsWithL as bs

/-- `strings.Contains hay needle`: `needle` occurs as a contiguous substring
of `hay`. -/
def containsL : List Char → List Char → Bool
  | [], needle => startsWithL [] needle
  | a :: as, needle => startsWithL (a :: as) needle || containsL as needle

/-- Worker for `replaceAll`, structurally recursive on a fuel argument so
that it reduces in the kernel.  Each step consumes at least one character
of `s`, so any fuel of at least `s.length` gives the fuel-free fixpoint
(the `0, s` fallback is then unreachable for non-empty `s`). -/
def replaceAllF (needle : List Char) : Nat → List Char → List Char
  | _, [] => []
  | 0, s => s
  | fuel + 1, a :: as =>
    if needle ≠ [] ∧ startsWithL (a :: as) needle = true then
      replaceAllF needle fuel (as.drop (needle.length - 1))
    else
      a :: replaceAllF needle fuel as

/-- `strings.Replace s needle "" -1`: delete every (non-overlapping,
leftmost-first) occurrence of `needle` from `s`.  For an empty `needle` Go
inserts the empty replacement everywhere, which leaves `s` unchanged. -/
def replaceAll (needle s : List Char) : List Char :=
  replaceAllF needle s.length s

/-- Outcome of `check`: either the boolean return value, or the
print-usage-and-exit path taken on the reserved help tokens. -/
inductive CheckOut where
  | ret : Bool → CheckOut
  | helpExit : CheckOut
deriving DecidableEq

/-- The long-name branch of `check` (lines 33-41 of `argument.go`): fires
iff `lname` is non-empty, the token is longer than 2, begins with `--`, its
third character is not `-`, and the remainder equals `lname`. -/
def checkLong (o : arg) (argument : List Char) : Bool :=
  if o.lname ≠ [] then
    if 2 < argument.length ∧ argument.take 2 = ['-', '-'] ∧ argument[2]? ≠ some '-' then
      decide (argument.drop 2 = o.lname)
    else false
  else false

/-- The short-name branch of `check` (lines 42-59): for a token longer
than 1 beginning with `-` whose second character is not `-`, a `*bool`
result matches by substring containment of `sname` in the remainder
(clustered flags), every other result type by exact equality. -/
def checkShort (o : arg) (argument : List Char) : Bool :=
  if o.sname ≠ [] then
    if 1 < argument.length ∧ argument.take 1 = ['-'] ∧ argument[1]? ≠ some '-' then
      match o.result with
      | ResultVal.boolean _ => containsL (argument.drop 1) o.sname
      | _ => decide (argument.drop 1 = o.sname)
    else false
  else false

/-- `func (o *arg) check(argument string) bool`.  The reserved tokens `-h`
and `--help` short-circuit into the help exit; otherwise the long-name rule
is tried first and the short-name rule second. -/
def check (o : arg) (argument : List Char) : CheckOut :=
  if argument = "-h".toList ∨ argument = "--help".toList then CheckOut.helpExit
  else CheckOut.ret (checkLong o argument || checkShort o argument)

/-- The blanking loop `for i := position; i < position+size; i++ {
(*args)[i] = "" }` of `reduce`. -/
def blankRange : List (List Char) → Nat → Nat → List (List Char)
  | args, _, 0 => args
  | args, p, n + 1 => blankRange (args.set p []) (p + 1) n

/-- The long-name block of `reduce` (lines 66-76 of `argument.go`): blank
`size` tokens starting at `position` when the token there matches the long
name.  The Go code reads `argument := (*args)[position]` once before this
block; since the block never changes which token sits at `position`'s
*original* value is used for the later short-name tests, the staged pure
translation below keeps reading from the original `args`. -/
def reduceLong (o : arg) (position : Nat) (args : List (List Char)) : List (List Char) :=
  if o.lname ≠ [] then
    if 2 < (args.getD position []).length ∧ (args.getD position []).take 2 = ['-', '-'] ∧
        (args.getD position [])[2]? ≠ some '-' then
      if (args.getD position []).drop 2 = o.lname then blankRange args position o.size
      else args
    else args
  else args

/-- `func (o *arg) reduce(position int, args *[]string)`.  The long-name
case blanks `size` tokens starting at `position`; the short-name case does
the same for non-boolean results, while for `*bool` results it deletes the
matched short name from the cluster token and blanks the token entirely if
only the bare `-` marker remains (the two sequential writes of the Go code
collapse into one `set` of the final value).  All tests read the token
captured from the original list, as the Go code does. -/
def reduce (o : arg) (position : Nat) (args : List (List Char)) : List (List Char) :=
  if o.sname ≠ [] then
    if 1 < (args.getD position []).length ∧ (args.getD position []).take 1 = ['-'] ∧
        (args.getD position [])[1]? ≠ some '-' then
      match o.result with
      | ResultVal.boolean _ =>
        if containsL ((args.getD position []).drop 1) o.sname = true then
          (reduceLong o position args).set position
            (if replaceAll o.sname (args.getD position []) = ['-'] then []
             else replaceAll o.sname (args.getD position []))
        else reduceLong o position args
      | _ =>
        if (args.getD position []).drop 1 = o.sname then
          blankRange (reduceLong o position args) position o.size
        else reduceLong o position args
    else reduceLong o position args
  else reduceLong o position args

/-- `func (o *arg) name() string`: render the option's display name from
its short and long names. -/
def arg.name (o : arg) : List Char :=
  if o.lname = [] then '-' :: o.sname
  else if o.sname = [] then '-' :: '-' :: o.lname
  else '-' :: (o.sname ++ '|' :: '-' :: '-' :: o.lname)

/-- `fmt.Errorf("[%s] can only be present once", o.name())`. -/
def duplicateMsg (o : arg) : List Char :=
  '[' :: o.name ++ "] can only be present once".toList

/-- `fmt.Errorf("[%s] must be followed by a string", o.name())`. -/
def tooFewStringMsg (o : arg) : List Char :=
  '[' :: o.name ++ "] must be followed by a string".toList

/-- `fmt.Errorf("[%s] must be followed by a path to file", o.name())`. -/
def tooFewFileMsg (o : arg) : List Char :=
  '[' :: o.name ++ "] must be followed by a path to file".toList

/-- `fmt.Errorf("[%s] followed by too many arguments", o.name())`. -/
def tooManyMsg (o : arg) : List Char :=
  '[' :: o.name ++ "] followed by too many arguments".toList

/-- Go `%v` rendering of a `[]string`: entries joined by single spaces,
wrapped in square brackets. -/
def fmtStrSlice (l : List (List Char)) : List Char :=
  '[' :: List.intercalate [' '] l ++ [']']

/-- `fmt.Errorf("bad value for [%s]. Allowed values are %v", o.name(),
*o.selector)`. -/
def badValueMsg (o : arg) (sel : List (List Char)) : List Char :=
  "bad value for [".toList ++ o.name ++ "]. Allowed values are ".toList ++ fmtStrSlice sel

/-- The message of the `default` branch of `parse`; the exact `%t`
rendering of the unknown dynamic type is not modelled. -/
def unsupportedMsg : List Char :=
  "unsupported type".toList

/-- The validator guard of `parse`: `if o.opts != nil && o.opts.Validate !=
nil { err := o.opts.Validate(args); if err != nil { return err } }`. -/
def runValidate (o : arg) (args : List (List Char)) : Option (List Char) :=
  match o.opts with
  | none => none
  | some op =>
    match op.validate with
    | none => none
    | some v => v args

/-- Outcome of `parse`: success with the updated receiver, an error message
with the receiver as left at the return point, or the `*help`
print-usage-and-exit path. -/
inductive ParseOut where
  | ok : arg → ParseOut
  | err : List Char → arg → ParseOut
  | helpExit : ParseOut

/-- `func (o *arg) parse(args []string) error`.  The uniqueness gate runs
first, then the validator, then the dispatch on the dynamic type of the
output slot.  `openFile` models `os.OpenFile(path, o.fileFlag, o.filePerm)`
as an environment capability returning a handle or an error message. -/
def parse (o : arg) (openFile : List Char → Nat → Nat → Except (List Char) Nat)
    (args : List (List Char)) : ParseOut :=
  if o.unique = true ∧ o.parsed = true then ParseOut.err (duplicateMsg o) o
  else
    match runValidate o args with
    | some e => ParseOut.err e o
    | none =>
      match o.result with
      | ResultVal.help => ParseOut.helpExit
      | ResultVal.boolean _ =>
        ParseOut.ok { o with result := ResultVal.boolean true, parsed := true }
      | ResultVal.str _ =>
        if args.length < 1 then ParseOut.err (tooFewStringMsg o) o
        else if 1 < args.length then ParseOut.err (tooManyMsg o) o
        else
          match o.selector with
          | some sel =>
            if args.getD 0 [] ∈ sel then
              ParseOut.ok { o with result := ResultVal.str (args.getD 0 []), parsed := true }
            else ParseOut.err (badValueMsg o sel) o
          | none =>
            ParseOut.ok { o with result := ResultVal.str (args.getD 0 []), parsed := true }
      | ResultVal.file _ =>
        if args.length < 1 then ParseOut.err (tooFewFileMsg o) o
        else if 1 < args.length then ParseOut.err (tooManyMsg o) o
        else
          match openFile (args.getD 0 []) o.fileFlag o.filePerm with
          | Except.error e => ParseOut.err e o
          | Except.ok f =>
            ParseOut.ok { o with result := ResultVal.file f, parsed := true }
      | ResultVal.strList l =>
        if args.length < 1 then ParseOut.err (tooFewStringMsg o) o
        else if 1 < args.length then ParseOut.err (tooManyMsg o) o
        else
          ParseOut.ok
            { o with result := ResultVal.strList (l ++ [args.getD 0 []]), parsed := true }
      | ResultVal.unsupported => ParseOut.err unsupportedMsg o

/-- The `o.opts == nil || o.opts.Required == false` test of `usage`. -/
def optsNotRequired (o : arg) : Bool :=
  match o.opts with
  | none => true
  | some op => !op.required

/-- `func (o *arg) usage() string`: the display name, a kind-specific value
placeholder (the declared choices joined by `|` for a selector), wrapped in
square brackets unless the option is required. -/
def arg.usage (o : arg) : List Char :=
  let result := o.name
  let result :=
    match o.result with
    | ResultVal.boolean _ => result
    | ResultVal.str _ =>
      match o.selector with
      | some sel => result ++ ' ' :: '(' :: List.intercalate ['|'] sel ++ [')']
      | none => result ++ " \"<value>\"".toList
    | ResultVal.file _ => result ++ " <file>".toList
    | ResultVal.strList _ => result ++ " \"<string>\"".toList
    | _ => result
  if optsNotRequired o = true then '[' :: result ++ [']'] else result

/-- A sample Single-string definition with short name `o`, long name `out`,
no choices; `r` is its required flag (used by the usage-rendering claim). -/
def sampleOut (r : Bool) : arg :=
  { result := ResultVal.str [], opts := some { required := r, validate := none },
    sname := ['o'], lname := "out".toList, size := 2, unique := false,
    parsed := false, fileFlag := 0, filePerm := 0, selector := none }

/-- A sample Boolean-flag definition with short name `x` and no long name
(used by the cluster-reduction claims). -/
def boolX : arg :=
  { result := ResultVal.boolean false, opts := none, sname := ['x'], lname := [],
    size := 1, unique := false, parsed := false, fileFlag := 0, filePerm := 0,
    selector := none }

/-- A sample long-only Boolean-flag definition with long name `verbose` and
arity 0 (so `size = 1`), used by the long-name claims. -/
def longVerbose : arg :=
  { result := ResultVal.boolean false, opts := none, sname := [], lname := "verbose".toList,
    size := 1, unique := false, parsed := false, fileFlag := 0, filePerm := 0,
    selector := none }

/-- A sample Single-string definition with short name `x` and no choices. -/
def strX : arg :=
  { result := ResultVal.str [], opts := none, sname := ['x'], lname := [],
    size := 2, unique := false, parsed := false, fileFlag := 0, filePerm := 0,
    selector := none }

/-- A sample Single-string definition with choices `yes`/`no`. -/
def selYN : arg :=
  { result := ResultVal.str [], opts := none, sname := ['m'], lname := [],
    size := 2, unique := false, parsed := false, fileFlag := 0, filePerm := 0,
    selector := some ["yes".toList, "no".toList] }

/-- A sample unique Single-string definition, not yet parsed. -/
def uniqStr : arg :=
  { result := ResultVal.str [], opts := none, sname := ['u'], lname := [],
    size := 2, unique := true, parsed := false, fileFlag := 0, filePerm := 0,
    selector := none }

/-- `uniqStr` after a successful bind of the value `v`. -/
def uniqStrParsed : arg :=
  { result := ResultVal.str "v".toList, opts := none, sname := ['u'], lname := [],
    size := 2, unique := true, parsed := true, fileFlag := 0, filePerm := 0,
    selector := none }

/-- A file-open capability that always fails (used in closed instances:
`parse` never reaches it on the paths exercised there). -/
def noFS : List Char → Nat → Nat → Except (List Char) Nat :=
  fun _ _ _ => Except.error []

section Lemmas

theorem blankRange_length (n : Nat) :
    ∀ (args : List (List Char)) (p : Nat), (blankRange args p n).length = args.length := by
  induction n with
  | zero => intro args p; rfl
  | succ n ih =>
    intro args p
    rw [blankRange, ih, List.length_set]

theorem blankRange_getElem? (n : Nat) :
    ∀ (args : List (List Char)) (p i : Nat),
      (blankRange args p n)[i]? =
        if p ≤ i ∧ i < p + n ∧ i < args.length then some [] else args[i]? := by
  induction n with
  | zero =>
    intro args p i
    have hno : ¬(p ≤ i ∧ i < p + 0 ∧ i < args.length) := by omega
    rw [blankRange, if_neg hno]
  | succ n ih =>
    intro args p i
    rw [blankRange, ih, List.length_set, List.getElem?_set]
    split_ifs <;>
      first
        | rfl
        | (exfalso; omega)
        | (exact (List.getElem?_eq_none (by omega)).symm)

theorem take_two_snd {t : List Char} (h : t.take 2 = ['-', '-']) : t[1]? = some '-' := by
  cases t with
  | nil => simp at h
  | cons a t' =>
    cases t' with
    | nil => simp [List.take] at h
    | cons b t'' =>
      simp only [List.take, List.cons.injEq] at h
      simp [h.2.1]

theorem getD_zero_of_get {args : List (List Char)} {p : Nat} {t : List Char}
    (h : args[p]? = some t) : args.getD p [] = t := by
  rw [List.getD_eq_getElem?_getD, h]
  rfl

/-- The long-name block of `reduce` does nothing when the token at
`position` does not have the double-marker shape. -/
theorem reduceLong_noop (o : arg) (position : Nat) (args : List (List Char))
    (h : ¬(2 < (args.getD position []).length ∧ (args.getD position []).take 2 = ['-', '-'] ∧
        (args.getD position [])[2]? ≠ some '-')) :
    reduceLong o position args = args := by
  unfold reduceLong
  by_cases hl : o.lname ≠ []
  · rw [if_pos hl, if_neg h]
  · rw [if_neg hl]

/-- The boolean short-name branch of `reduce` in closed form: when a
`*bool` option with short name `sname` meets a matching single-marker
cluster token `t` at `position`, the call rewrites exactly that slot to the
cluster with every occurrence of `sname` deleted, blanked entirely when
only the bare marker remains. -/
theorem reduce_bool_eq (o : arg) (b : Bool) (args : List (List Char)) (position : Nat)
    (t : List Char)
    (hres : o.result = ResultVal.boolean b)
    (hs : o.sname ≠ [])
    (hget : args[position]? = some t)
    (hlen : 1 < t.length) (hpre : t.take 1 = ['-']) (h2 : t[1]? ≠ some '-')
    (hcont : containsL (t.drop 1) o.sname = true) :
    reduce o position args =
      args.set position
        (if replaceAll o.sname t = ['-'] then [] else replaceAll o.sname t) := by
  have hgd : args.getD position [] = t := getD_zero_of_get hget
  have hnolong : ¬(2 < (args.getD position []).length ∧
      (args.getD position []).take 2 = ['-', '-'] ∧ (args.getD position [])[2]? ≠ some '-') := by
    rw [hgd]
    rintro ⟨-, hp2, -⟩
    exact h2 (take_two_snd hp2)
  unfold reduce
  rw [hgd, if_pos hs, if_pos ⟨hlen, hpre, h2⟩, hres]
  simp only [hcont, if_true, reduceLong_noop o position args hnolong]

theorem replaceAllF_single (c : Char) (fuel : Nat) :
    ∀ t : List Char, t.length ≤ fuel →
      replaceAllF [c] fuel t = t.filter (fun a => a != c) := by
  induction fuel with
  | zero =>
    intro t ht
    have : t = [] := List.eq_nil_of_length_eq_zero (Nat.le_zero.mp ht)
    subst this
    rfl
  | succ fuel ih =>
    intro t ht
    cases t with
    | nil => rfl
    | cons a as =>
      have has : as.length ≤ fuel := by
        simp only [List.length_cons] at ht
        omega
      by_cases hac : a = c
      · subst hac
        rw [replaceAllF, if_pos]
        · simp only [List.length_cons, List.length_nil, Nat.sub_self, List.drop_zero]
          rw [ih as has]
          simp [List.filter_cons]
        · refine ⟨by simp, ?_⟩
          simp [startsWithL]
      · have hbne : (a != c) = true := by simp [hac]
        rw [replaceAllF, if_neg]
        · rw [ih as has]
          simp [List.filter_cons, hbne]
        · rintro ⟨-, hsw⟩
          simp [startsWithL, hac] at hsw

/-- `strings.Replace t c "" -1` for a single-character pattern `c` deletes
every occurrence of `c` from `t`. -/
theorem replaceAll_single (c : Char) (t : List Char) :
    replaceAll [c] t = t.filter (fun a => a != c) :=
  replaceAllF_single c t.length t (Nat.le_refl _)

end Lemmas

/-- Claim C1: when the token at `position` matches the long name (length > 2,
double-marker prefix, third character not a marker, remainder equal to
`lname`) and the option's consumption size is `arity + 1`, `reduce` blanks
exactly the `arity + 1` tokens at positions `position .. position + arity`
and leaves every other token unchanged. -/
theorem reduce_long_blanks_arity (o : arg) (args : List (List Char)) (position arity : Nat)
    (hl : o.lname ≠ [])
    (hsz : o.size = arity + 1)
    (hlen : 2 < (args.getD position []).length)
    (hpre : (args.getD position []).take 2 = ['-', '-'])
    (h3 : (args.getD position [])[2]? ≠ some '-')
    (hname : (args.getD position []).drop 2 = o.lname)
    (hrange : position + arity < args.length) :
    (reduce o position args).length = args.length ∧
    (∀ i, position ≤ i → i ≤ position + arity → (reduce o position args)[i]? = some []) ∧
    (∀ i, i < position ∨ position + arity < i → (reduce o position args)[i]? = args[i]?) := by
  have h1 : (args.getD position [])[1]? = some '-' := take_two_snd hpre
  have hnoshort : ¬(1 < (args.getD position []).length ∧
      (args.getD position []).take 1 = ['-'] ∧ (args.getD position [])[1]? ≠ some '-') := by
    rintro ⟨-, -, hne⟩
    exact hne h1
  have hlong : reduceLong o position args = blankRange args position o.size := by
    unfold reduceLong
    rw [if_pos hl, if_pos ⟨hlen, hpre, h3⟩, if_pos hname]
  have hred : reduce o position args = blankRange args position o.size := by
    unfold reduce
    by_cases hs : o.sname ≠ []
    · rw [if_pos hs, if_neg hnoshort, hlong]
    · rw [if_neg hs, hlong]
  refine ⟨by rw [hred, blankRange_length], fun i hi1 hi2 => ?_, fun i hi => ?_⟩
  · rw [hred, blankRange_getElem?, if_pos]
    exact ⟨hi1, by omega, by omega⟩
  · rw [hred, blankRange_getElem?, if_neg]
    rw [hsz]
    omega

/-- Closed instance of C1: the long-name option `--verbose` (arity 0) at
position 1 of `["pre", "--verbose", "post"]` blanks exactly slot 1. -/
theorem reduce_long_blanks_arity_witness :
    (reduce longVerbose 1 ["pre".toList, "--verbose".toList, "post".toList])[1]? = some [] ∧
    (reduce longVerbose 1 ["pre".toList, "--verbose".toList, "post".toList])[0]? =
      some "pre".toList ∧
    (reduce longVerbose 1 ["pre".toList, "--verbose".toList, "post".toList])[2]? =
      some "post".toList :=
  ⟨(reduce_long_blanks_arity longVerbose _ 1 0 (by decide) rfl (by decide) (by decide)
      (by decide) (by decide) (by decide)).2.1 1 (by decide) (by decide),
   (reduce_long_blanks_arity longVerbose _ 1 0 (by decide) rfl (by decide) (by decide)
      (by decide) (by decide) (by decide)).2.2 0 (Or.inl (by decide)),
   (reduce_long_blanks_arity longVerbose _ 1 0 (by decide) rfl (by decide) (by decide)
      (by decide) (by decide) (by decide)).2.2 2 (Or.inr (by decide))⟩

/-- Claim C5: a Boolean-flag definition with short name `sname` meeting a
matching single-marker cluster token at `position` rewrites only that
token, deleting the short name from the cluster, and blanks the token
entirely when only the bare `-` marker would remain. -/
theorem reduce_bool_cluster (o : arg) (b : Bool) (args : List (List Char)) (position : Nat)
    (t : List Char)
    (hres : o.result = ResultVal.boolean b)
    (hs : o.sname ≠ [])
    (hget : args[position]? = some t)
    (hlen : 1 < t.length) (hpre : t.take 1 = ['-']) (h2 : t[1]? ≠ some '-')
    (hcont : containsL (t.drop 1) o.sname = true) :
    reduce o position args =
      args.set position
        (if replaceAll o.sname t = ['-'] then [] else replaceAll o.sname t) :=
  reduce_bool_eq o b args position t hres hs hget hlen hpre h2 hcont

/-- Closed instance of C5: with short name `x`, the cluster `-xyz` becomes
`-yz`, and the lone `-x` is blanked to the empty token rather than `-`. -/
theorem reduce_bool_cluster_witness :
    reduce boolX 0 ["-xyz".toList] = ["-yz".toList] ∧
    reduce boolX 0 ["-x".toList] = [[]] := by
  constructor
  · rw [reduce_bool_cluster boolX false ["-xyz".toList] 0 "-xyz".toList rfl (by decide)
      (by decide) (by decide) (by decide) (by decide) (by decide)]
    decide
  · rw [reduce_bool_cluster boolX false ["-x".toList] 0 "-x".toList rfl (by decide)
      (by decide) (by decide) (by decide) (by decide) (by decide)]
    decide

/-- Claim C10: for a Boolean-flag definition with single-character short name `c`,
`reduce` on a matching cluster token deletes every occurrence of `c` from
the whole token (a filter), not just the first one. -/
theorem reduce_bool_removes_all (o : arg) (b : Bool) (c : Char) (args : List (List Char))
    (position : Nat) (t : List Char)
    (hres : o.result = ResultVal.boolean b)
    (hs : o.sname = [c])
    (hget : args[position]? = some t)
    (hlen : 1 < t.length) (hpre : t.take 1 = ['-']) (h2 : t[1]? ≠ some '-')
    (hcont : containsL (t.drop 1) o.sname = true) :
    reduce o position args =
      args.set position
        (if t.filter (fun a => a != c) = ['-'] then []
         else t.filter (fun a => a != c)) := by
  have hs' : o.sname ≠ [] := by rw [hs]; simp
  rw [reduce_bool_eq o b args position t hres hs' hget hlen hpre h2 hcont, hs,
    replaceAll_single]

/-- Closed instance of C10: with short name `x`, the token `-xyx` is
rewritten to `-y` by a single `reduce` call. -/
theorem reduce_bool_removes_all_witness :
    reduce boolX 0 ["-xyx".toList] = ["-y".toList] := by
  rw [reduce_bool_removes_all boolX false 'x' ["-xyx".toList] 0 "-xyx".toList rfl rfl
    (by decide) (by decide) (by decide) (by decide) (by decide)]
  decide

/-- Claim C4: on a single-marker token (length > 1, leading `-`, second character
not `-`, and not the reserved `-h`), a definition with a non-empty short
name matches by substring containment of the short name in the remainder
when its output slot is a `*bool`, and by exact equality of the remainder
for every other output-slot kind. -/
theorem check_short_rule (o : arg) (t : List Char)
    (hs : o.sname ≠ [])
    (hlen : 1 < t.length) (hpre : t.take 1 = ['-']) (h2 : t[1]? ≠ some '-')
    (hh : t ≠ "-h".toList) :
    (∀ b, o.result = ResultVal.boolean b →
      (check o t = CheckOut.ret true ↔ containsL (t.drop 1) o.sname = true)) ∧
    ((∀ b, o.result ≠ ResultVal.boolean b) →
      (check o t = CheckOut.ret true ↔ t.drop 1 = o.sname)) := by
  have hnh2 : t ≠ "--help".toList := by
    intro he
    subst he
    exact h2 (by decide)
  have hcl : checkLong o t = false := by
    unfold checkLong
    by_cases hl : o.lname ≠ []
    · rw [if_pos hl, if_neg]
      rintro ⟨-, hp2, -⟩
      exact h2 (take_two_snd hp2)
    · rw [if_neg hl]
  have hck : check o t = CheckOut.ret (checkShort o t) := by
    unfold check
    rw [if_neg (fun h => h.elim hh hnh2), hcl, Bool.false_or]
  constructor
  · intro b hb
    rw [hck]
    unfold checkShort
    rw [if_pos hs, if_pos ⟨hlen, hpre, h2⟩, hb]
    simp
  · intro hnb
    rw [hck]
    unfold checkShort
    rw [if_pos hs, if_pos ⟨hlen, hpre, h2⟩]
    cases hval : o.result with
    | boolean b => exact absurd hval (hnb b)
    | help => simp
    | str s => simp
    | file n => simp
    | strList l => simp
    | unsupported => simp

/-- Closed instance of C4: the boolean short name `x` matches inside the
cluster `-ax`, while the Single-string short name `x` does not match the
clustered token `-xy`. -/
theorem check_short_rule_witness :
    check boolX "-ax".toList = CheckOut.ret true ∧
    ¬check strX "-xy".toList = CheckOut.ret true :=
  ⟨((check_short_rule boolX "-ax".toList (by decide) (by decide) (by decide) (by decide)
      (by decide)).1 false rfl).mpr (by decide),
   fun h =>
    absurd (((check_short_rule strX "-xy".toList (by decide) (by decide) (by decide)
      (by decide) (by decide)).2 (fun b hb => ResultVal.noConfusion hb)).mp h)
      (by decide)⟩

/-- Claim C6: for a definition with a non-empty long name, the long-name rule of
`check` accepts a token exactly when it is longer than 2, starts with the
double marker `--`, its third character is not a marker (so triple-marker
tokens never match), and the remainder equals the long name; whenever the
rule accepts (and the token is not a reserved help token), `check` returns
true. -/
theorem check_long_rule (o : arg) (t : List Char) (hl : o.lname ≠ []) :
    (checkLong o t = true ↔
      (2 < t.length ∧ t.take 2 = ['-', '-'] ∧ t[2]? ≠ some '-' ∧ t.drop 2 = o.lname)) ∧
    (t ≠ "-h".toList → t ≠ "--help".toList → checkLong o t = true →
      check o t = CheckOut.ret true) := by
  constructor
  · unfold checkLong
    rw [if_pos hl]
    by_cases hc : 2 < t.length ∧ t.take 2 = ['-', '-'] ∧ t[2]? ≠ some '-'
    · rw [if_pos hc]
      simp only [decide_eq_true_eq]
      exact ⟨fun h => ⟨hc.1, hc.2.1, hc.2.2, h⟩, fun h => h.2.2.2⟩
    · rw [if_neg hc]
      constructor
      · intro h
        exact absurd h (by simp)
      · rintro ⟨ha, hb2, hc2, -⟩
        exact absurd ⟨ha, hb2, hc2⟩ hc
  · intro hh1 hh2 hclt
    unfold check
    rw [if_neg (fun h => h.elim hh1 hh2), hclt, Bool.true_or]

/-- Closed instance of C6: `--verbose` matches the long name `verbose`, and
the triple-marker token `---verbose` does not. -/
theorem check_long_rule_witness :
    check longVerbose "--verbose".toList = CheckOut.ret true ∧
    checkLong longVerbose "---verbose".toList = false :=
  ⟨(check_long_rule longVerbose "--verbose".toList (by decide)).2 (by decide) (by decide)
      (by decide),
   by
    by_contra h
    have hb : checkLong longVerbose "---verbose".toList = true := by
      cases hcl : checkLong longVerbose "---verbose".toList
      · exact absurd hcl h
      · rfl
    exact absurd ((check_long_rule longVerbose "---verbose".toList (by decide)).1.mp hb)
      (by decide)⟩

/-- Claim C9: no definition ever matches the empty-string token, and `reduce` at
a position holding the empty token leaves the token list unchanged; a
blanked token can therefore never be matched or consumed again. -/
theorem blank_token_inert (o : arg) :
    check o [] = CheckOut.ret false ∧
    ∀ (args : List (List Char)) (position : Nat),
      args[position]? = some [] → reduce o position args = args := by
  constructor
  · have h1 : checkLong o [] = false := by
      unfold checkLong
      by_cases hl : o.lname ≠ []
      · rw [if_pos hl, if_neg]
        rintro ⟨h, -⟩
        exact absurd h (by decide)
      · rw [if_neg hl]
    have h2 : checkShort o [] = false := by
      unfold checkShort
      by_cases hs : o.sname ≠ []
      · rw [if_pos hs, if_neg]
        rintro ⟨h, -⟩
        exact absurd h (by decide)
      · rw [if_neg hs]
    unfold check
    rw [if_neg (by decide), h1, h2]
    rfl
  · intro args position hget
    have hgd : args.getD position [] = [] := getD_zero_of_get hget
    have hrl : reduceLong o position args = args := by
      apply reduceLong_noop
      rw [hgd]
      rintro ⟨h, -⟩
      exact absurd h (by decide)
    unfold reduce
    rw [hgd]
    by_cases hs : o.sname ≠ []
    · rw [if_pos hs, if_neg]
      · exact hrl
      · rintro ⟨h, -⟩
        exact absurd h (by decide)
    · rw [if_neg hs]
      exact hrl

/-- Closed instance of C9: `reduce` on a list holding only a blanked token
is the identity. -/
theorem blank_token_inert_witness : reduce boolX 0 [[]] = [[]] :=
  (blank_token_inert boolX).2 [[]] 0 (by decide)

/-- On every success path, `parse` returns the receiver with `parsed` set
and all declaration fields (in particular `unique`) unchanged. -/
theorem parse_ok_fields {o : arg} {f : List Char → Nat → Nat → Except (List Char) Nat}
    {args : List (List Char)} {o' : arg} (h : parse o f args = ParseOut.ok o') :
    o'.parsed = true ∧ o'.unique = o.unique := by
  unfold parse at h
  repeat' split at h
  all_goals
    first
      | exact ParseOut.noConfusion h
      | (injection h with h1; subst h1; exact ⟨rfl, rfl⟩)

/-- On every error path, `parse` returns the receiver unchanged. -/
theorem parse_err_state {o : arg} {f : List Char → Nat → Nat → Except (List Char) Nat}
    {args : List (List Char)} {m : List Char} {o' : arg}
    (h : parse o f args = ParseOut.err m o') : o' = o := by
  unfold parse at h
  repeat' split at h
  all_goals
    first
      | exact ParseOut.noConfusion h
      | (injection h with h1 h2; exact h2.symm)

/-- Claim C3: for a unique definition, a successful `parse` sets `parsed`, and
every subsequent `parse` on the result fails with the duplicate-option
error naming the option, regardless of the argument slice and before any
validation or kind dispatch is reached. -/
theorem parse_unique_duplicate (o : arg) (f : List Char → Nat → Nat → Except (List Char) Nat)
    (args : List (List Char)) (o' : arg)
    (hu : o.unique = true)
    (hok : parse o f args = ParseOut.ok o') :
    o'.parsed = true ∧
    ∀ (f2 : List Char → Nat → Nat → Except (List Char) Nat) (args2 : List (List Char)),
      parse o' f2 args2 = ParseOut.err (duplicateMsg o') o' := by
  obtain ⟨hp, hq⟩ := parse_ok_fields hok
  refine ⟨hp, fun f2 args2 => ?_⟩
  unfold parse
  rw [if_pos ⟨by rw [hq, hu], hp⟩]

/-- Closed instance of C3: the unique option binds `v` once, then rejects a
second bind. -/
theorem parse_unique_duplicate_witness :
    parse uniqStr noFS ["v".toList] = ParseOut.ok uniqStrParsed ∧
    parse uniqStrParsed noFS ["w".toList] =
      ParseOut.err (duplicateMsg uniqStrParsed) uniqStrParsed :=
  ⟨rfl, (parse_unique_duplicate uniqStr noFS ["v".toList] uniqStrParsed rfl rfl).2 noFS
    ["w".toList]⟩

/-- Claim C7: whenever `parse` returns an error — duplicate, validation failure,
arity mismatch, invalid choice, resource-open failure or unsupported kind —
the definition's `parsed` flag is left unchanged. -/
theorem parse_err_preserves_parsed (o : arg)
    (f : List Char → Nat → Nat → Except (List Char) Nat) (args : List (List Char))
    (m : List Char) (o' : arg)
    (h : parse o f args = ParseOut.err m o') : o'.parsed = o.parsed := by
  rw [parse_err_state h]

/-- Closed instance of C7: a Single-string option given no tokens errors
and its `parsed` flag is untouched. -/
theorem parse_err_preserves_parsed_witness :
    parse strX noFS [] = ParseOut.err (tooFewStringMsg strX) strX ∧
    strX.parsed = strX.parsed :=
  ⟨rfl, parse_err_preserves_parsed strX noFS [] (tooFewStringMsg strX) strX rfl⟩

/-- Claim C2: a Single-string definition (duplicate gate passing, validator
absent or accepting) errors with the must-be-followed-by-a-string message
on an empty slice, errors with the too-many-arguments message on two or
more tokens, and with choices declared accepts exactly a declared choice
(writing it and marking parsed) while rejecting any other single token
with the bad-value error listing the allowed values. -/
theorem parse_single_string (o : arg) (f : List Char → Nat → Nat → Except (List Char) Nat)
    (s : List Char)
    (hres : o.result = ResultVal.str s)
    (hdup : ¬(o.unique = true ∧ o.parsed = true))
    (hv : ∀ as, runValidate o as = none) :
    parse o f [] = ParseOut.err (tooFewStringMsg o) o ∧
    (∀ args, 2 ≤ args.length → parse o f args = ParseOut.err (tooManyMsg o) o) ∧
    (∀ sel t, o.selector = some sel → t ∈ sel →
      parse o f [t] = ParseOut.ok { o with result := ResultVal.str t, parsed := true }) ∧
    (∀ sel t, o.selector = some sel → t ∉ sel →
      parse o f [t] = ParseOut.err (badValueMsg o sel) o) := by
  refine ⟨?_, fun args hlen => ?_, fun sel t hsel hmem => ?_, fun sel t hsel hmem => ?_⟩
  · unfold parse
    rw [if_neg hdup, hv, hres]
    rfl
  · unfold parse
    rw [if_neg hdup, hv, hres, if_neg (by omega), if_pos (by omega)]
  · unfold parse
    rw [if_neg hdup, hv, hres, hsel]
    simp [hmem]
  · unfold parse
    rw [if_neg hdup, hv, hres, hsel]
    simp [hmem]

/-- Closed instance of C2 on the `yes`/`no` selector option: zero tokens,
two tokens, one valid choice, one invalid choice. -/
theorem parse_single_string_witness :
    parse selYN noFS [] = ParseOut.err (tooFewStringMsg selYN) selYN ∧
    parse selYN noFS ["a".toList, "b".toList] = ParseOut.err (tooManyMsg selYN) selYN ∧
    parse selYN noFS ["yes".toList] =
      ParseOut.ok { selYN with result := ResultVal.str "yes".toList, parsed := true } ∧
    parse selYN noFS ["bad".toList] =
      ParseOut.err (badValueMsg selYN ["yes".toList, "no".toList]) selYN :=
  ⟨(parse_single_string selYN noFS [] rfl (by decide) (fun as => rfl)).1,
   (parse_single_string selYN noFS [] rfl (by decide) (fun as => rfl)).2.1
     ["a".toList, "b".toList] (by decide),
   (parse_single_string selYN noFS [] rfl (by decide) (fun as => rfl)).2.2.1
     ["yes".toList, "no".toList] "yes".toList rfl (by decide),
   (parse_single_string selYN noFS [] rfl (by decide) (fun as => rfl)).2.2.2
     ["yes".toList, "no".toList] "bad".toList rfl (by decide)⟩

/-- Claim C8: `name` renders `-<short>` when only the short name is set,
`--<long>` when only the long name is set, and `-<short>|--<long>` when
both are set; the Single-string option `-o|--out` without choices renders
its usage as `-o|--out "<value>"` unbracketed when required and wrapped in
square brackets otherwise. -/
theorem name_usage_rendering (o : arg) :
    (o.sname ≠ [] → o.lname = [] → o.name = '-' :: o.sname) ∧
    (o.sname = [] → o.lname ≠ [] → o.name = '-' :: '-' :: o.lname) ∧
    (o.sname ≠ [] → o.lname ≠ [] →
      o.name = '-' :: (o.sname ++ '|' :: '-' :: '-' :: o.lname)) ∧
    arg.usage (sampleOut true) = "-o|--out \"<value>\"".toList ∧
    arg.usage (sampleOut false) = "[-o|--out \"<value>\"]".toList := by
  refine ⟨fun hs hl => ?_, fun hs hl => ?_, fun hs hl => ?_, by decide, by decide⟩
  · unfold arg.name
    rw [if_pos hl]
  · unfold arg.name
    rw [if_neg (by simp [hl]), if_pos hs]
  · unfold arg.name
    rw [if_neg (by simp [hl]), if_neg (by simp [hs])]

/-- Closed instance of C8: the three `name` shapes at sample definitions
and the two usage renderings. -/
theorem name_usage_rendering_witness :
    arg.name boolX = "-x".toList ∧
    arg.name longVerbose = "--verbose".toList ∧
    arg.name (sampleOut true) = "-o|--out".toList ∧
    arg.usage (sampleOut true) = "-o|--out \"<value>\"".toList := by
  refine ⟨?_, ?_, ?_, (name_usage_rendering boolX).2.2.2.1⟩
  · rw [(name_usage_rendering boolX).1 (by decide) (by decide)]
    decide
  · rw [(name_usage_rendering longVerbose).2.1 (by decide) (by decide)]
    decide
  · rw [(name_usage_rendering (sampleOut true)).2.2.1 (by decide) (by decide)]
    decide
